import Mathlib

/-!
Verification development for the directed-inputs configuration library.

The Python source keeps configuration values in dictionaries mapping string
keys to arbitrary values (strings, numbers, booleans, bytes, lists, sets,
nested dictionaries, or None).  We embed such values as the inductive type
PyVal and dictionaries as association lists in insertion order, which is the
observable ordering of Python dicts.
-/

set_option autoImplicit false

/-- Embedded Python values as they flow through the library: None, booleans,
integers, floats (modelled as rationals), strings, byte strings, lists, sets
(kept as insertion-ordered lists of distinct members), and dictionaries
(insertion-ordered association lists). -/
inductive PyVal where
  | none
  | bool (b : Bool)
  | int (n : Int)
  | float (q : Rat)
  | str (s : String)
  | bytes (bs : List Nat)
  | list (xs : List PyVal)
  | set (xs : List PyVal)
  | dict (kvs : List (String × PyVal))

/-- A Python dictionary with string keys, in insertion order. -/
abbrev PyDict := List (String × PyVal)

/-- Emptiness of a string, computed on its character list. -/
def strIsEmpty (s : String) : Bool := s.toList.isEmpty

/-- Python str.casefold, modelled as ASCII lowercasing, computed on the
character list. -/
def casefoldStr (s : String) : String := String.mk (s.toList.map Char.toLower)

/-- ASCII whitespace. -/
def isWsChar (c : Char) : Bool := c = ' ' || c = '\t' || c = '\n' || c = '\r'

/-- Strip leading and trailing whitespace from a character list. -/
def trimChars (cs : List Char) : List Char :=
  ((cs.dropWhile isWsChar).reverse.dropWhile isWsChar).reverse

/-- The str.strip() of Python. -/
def trimStr (s : String) : String := String.mk (trimChars s.toList)

/-- Split a character list at every occurrence of the separator. -/
def splitOnChar (sep : Char) (cs : List Char) : List (List Char) :=
  cs.foldr
    (fun c acc =>
      match acc with
      | g :: gs => if c = sep then [] :: g :: gs else (c :: g) :: gs
      | [] => [[c]])
    [[]]

/-- First-occurrence association lookup, the map access d.get(k) of a
Python dict (Python dicts have unique keys, so first occurrence is the
occurrence). -/
def lookupA (k : String) : PyDict → Option PyVal
  | [] => Option.none
  | (k2, v) :: rest => if k2 = k then some v else lookupA k rest

/-- Membership test k in d for a Python dict. -/
def hasKey (k : String) (d : PyDict) : Bool :=
  (lookupA k d).isSome

/-- Assignment d[k] = v on a Python dict: replace the value at an existing
key in place (keeping its position) or append a fresh key at the end. -/
def upsert (d : PyDict) (k : String) (v : PyVal) : PyDict :=
  match d with
  | [] => [(k, v)]
  | (k2, w) :: rest => if k2 = k then (k2, v) :: rest else (k2, w) :: upsert rest k v

/-- The extended_data_types.is_nothing collaborator: true on None and on
empty sized containers (empty string, bytes, list, set, dict). -/
def isNothing : PyVal → Bool
  | PyVal.none => true
  | PyVal.str s => strIsEmpty s
  | PyVal.bytes bs => bs.isEmpty
  | PyVal.list xs => xs.isEmpty
  | PyVal.set xs => xs.isEmpty
  | PyVal.dict kvs => kvs.isEmpty
  | _ => false

mutual

/-- Structural equality of embedded Python values, the == of Python.
Proved below to coincide with propositional equality. -/
def pyBeq : PyVal → PyVal → Bool
  | PyVal.none, PyVal.none => true
  | PyVal.bool x, PyVal.bool y => x == y
  | PyVal.int x, PyVal.int y => x == y
  | PyVal.float x, PyVal.float y => x == y
  | PyVal.str x, PyVal.str y => x == y
  | PyVal.bytes x, PyVal.bytes y => x == y
  | PyVal.list xs, PyVal.list ys => pyBeqList xs ys
  | PyVal.set xs, PyVal.set ys => pyBeqList xs ys
  | PyVal.dict xs, PyVal.dict ys => pyBeqDict xs ys
  | _, _ => false
termination_by structural a b => a

/-- Pointwise equality of value lists. -/
def pyBeqList : List PyVal → List PyVal → Bool
  | [], [] => true
  | x :: xs, y :: ys => pyBeq x y && pyBeqList xs ys
  | _, _ => false
termination_by structural xs ys => xs

/-- Pointwise equality of association lists. -/
def pyBeqDict : List (String × PyVal) → List (String × PyVal) → Bool
  | [], [] => true
  | (k1, v1) :: xs, (k2, v2) :: ys => k1 == k2 && pyBeq v1 v2 && pyBeqDict xs ys
  | _, _ => false
termination_by structural xs ys => xs

end

/-- Insertion-ordered union of two set member lists: the base members
followed by the incoming members not already present.  This is the "union"
strategy the deepmerge Merger applies to sets. -/
def unionMembers (xs ys : List PyVal) : List PyVal :=
  xs ++ ys.filter (fun y => !(xs.any (fun x => pyBeq x y)))

mutual

/-- The deepmerge Merger configured in the source with type strategies
[(list, append), (dict, merge), (set, union)], fallback override and
type-conflict override: merging an incoming value (second argument) into a
base value (first argument). -/
def mergeVal : PyVal → PyVal → PyVal
  | PyVal.list xs, PyVal.list ys => PyVal.list (xs ++ ys)
  | PyVal.set xs, PyVal.set ys => PyVal.set (unionMembers xs ys)
  | PyVal.dict xs, PyVal.dict ys => PyVal.dict (mergeEntries xs ys)
  | _, y => y
termination_by structural a b => b

/-- The dict "merge" strategy of deepmerge: walk the incoming entries in
order; an entry whose key already exists in the base replaces the base value
in place with the recursive merge of the two values, a fresh key is appended. -/
def mergeEntries : PyDict → PyDict → PyDict
  | xs, [] => xs
  | xs, (k, w) :: rest =>
      match lookupA k xs with
      | some v => mergeEntries (upsert xs k (mergeVal v w)) rest
      | Option.none => mergeEntries (xs ++ [(k, w)]) rest
termination_by structural xs ys => ys

end

/-- State of DirectedInputsClass: the active inputs dictionary and the
frozen inputs dictionary. -/
structure DIC where
  inputs : PyDict
  frozen : PyDict

/-- DirectedInputsClass construction: the given initial inputs become the
active dictionary and the frozen dictionary starts empty. -/
def DIC.mk0 (inputs : PyDict) : DIC := ⟨inputs, []⟩

/-- freeze_inputs: if the frozen dictionary is nothing (empty), move a deep
copy of the active inputs into it and empty the active inputs; otherwise do
nothing.  (Deep copies are identities in the embedding.) -/
def DIC.freeze (s : DIC) : DIC :=
  if s.frozen.isEmpty then ⟨[], s.inputs⟩ else s

/-- thaw_inputs: if the active inputs are nothing (empty), move the frozen
dictionary back; otherwise deep-merge the frozen dictionary into the active
inputs.  The frozen dictionary is emptied in both cases. -/
def DIC.thaw (s : DIC) : DIC :=
  if s.inputs.isEmpty then ⟨s.frozen, []⟩
  else ⟨mergeEntries s.inputs s.frozen, []⟩

/-- shift_inputs: freeze when the frozen dictionary is nothing (empty),
thaw otherwise. -/
def DIC.shift (s : DIC) : DIC :=
  if s.frozen.isEmpty then s.freeze else s.thaw

/-- States of DirectedInputsClass reachable from construction by any
sequence of freeze_inputs, thaw_inputs and shift_inputs calls. -/
inductive DIC.Reachable : DIC → Prop where
  | init (inputs : PyDict) : DIC.Reachable (DIC.mk0 inputs)
  | freeze {s : DIC} : DIC.Reachable s → DIC.Reachable s.freeze
  | thaw {s : DIC} : DIC.Reachable s → DIC.Reachable s.thaw
  | shift {s : DIC} : DIC.Reachable s → DIC.Reachable s.shift

/-- The extended_data_types.strtobool collaborator on strings: the usual
truthy spellings map to true, everything else to false. -/
def strtoboolStr (s : String) : Bool :=
  let t := casefoldStr s
  t = "y" || t = "yes" || t = "t" || t = "true" || t = "on" || t = "1"

/-- The strtobool coercion as applied to an already-fetched input value:
booleans pass through, integers are nonzero tests, strings are parsed with
strtoboolStr, anything else (including None) is false. -/
def strtoboolVal : PyVal → Bool
  | PyVal.bool b => b
  | PyVal.int n => n != 0
  | PyVal.str s => strtoboolStr s
  | _ => false

/-- Test for the Python value None. -/
def pyIsNone : PyVal → Bool
  | PyVal.none => true
  | _ => false

/-- A nonempty run of decimal digits read as a natural number. -/
def parseDigits : List Char → Option Nat
  | [] => Option.none
  | cs =>
      if cs.all Char.isDigit then
        some (cs.foldl (fun n c => n * 10 + (c.toNat - 48)) 0)
      else Option.none

/-- The int(x) constructor of Python on strings: optional surrounding
whitespace, an optional sign, then decimal digits. -/
def parseIntStr (s : String) : Option Int :=
  match trimChars s.toList with
  | '-' :: rest => (parseDigits rest).map (fun n => -(n : Int))
  | '+' :: rest => (parseDigits rest).map (fun n => (n : Int))
  | cs => (parseDigits cs).map (fun n => (n : Int))

/-- The int(x) coercion of Python on embedded values: ints pass through,
booleans become 0 or 1, floats truncate toward zero, strings parse as
decimal integers; everything else fails. -/
def pyToInt : PyVal → Option Int
  | PyVal.int n => some n
  | PyVal.bool b => some (if b then 1 else 0)
  | PyVal.float q => some (if 0 ≤ q then ⌊q⌋ else ⌈q⌉)
  | PyVal.str s => parseIntStr s
  | _ => Option.none

/-- The float(x) constructor of Python on strings, restricted to plain
decimal literals: optional whitespace and sign, digits with an optional
fractional part (exponent forms are outside the model). -/
def parseRatStr (s : String) : Option Rat :=
  let core : List Char → Option Rat := fun cs =>
    let intPart := cs.takeWhile (fun c => c != '.')
    let rest := cs.dropWhile (fun c => c != '.')
    match rest with
    | [] => (parseDigits intPart).map (fun n => (n : Rat))
    | '.' :: fracPart =>
        if intPart.isEmpty && fracPart.isEmpty then Option.none
        else if (intPart.all Char.isDigit) && (fracPart.all Char.isDigit) then
          let ip : Nat := intPart.foldl (fun n c => n * 10 + (c.toNat - 48)) 0
          let fp : Nat := fracPart.foldl (fun n c => n * 10 + (c.toNat - 48)) 0
          some ((ip : Rat) + (fp : Rat) / ((10 : Rat) ^ fracPart.length))
        else Option.none
    | _ => Option.none
  match trimChars s.toList with
  | '-' :: rest => (core rest).map (fun q => -q)
  | '+' :: rest => core rest
  | cs => core cs

/-- The float(x) coercion of Python on embedded values. -/
def pyToFloat : PyVal → Option Rat
  | PyVal.int n => some (n : Rat)
  | PyVal.bool b => some (if b then 1 else 0)
  | PyVal.float q => some q
  | PyVal.str s => parseRatStr s
  | _ => Option.none

/-- A single-quote character as a string, used by the repr rendering. -/
def quoteS : String := String.singleton (Char.ofNat 39)

/-- Rendering of an integer, the repr of Python int. -/
def intRepr (n : Int) : String := Int.repr n

/-- Rendering of a modelled float as its reduced fraction.  (Python renders
floats in decimal; the claims never interpolate float values, so the model
only needs some total rendering.) -/
def ratRepr (q : Rat) : String := Int.repr q.num ++ "/" ++ Nat.repr q.den

mutual

/-- The repr of Python on embedded values, as interpolated into error
message f-strings: None, True, False, numbers, single-quoted strings,
bracketed lists, braced sets and dictionaries with quoted keys.  (Byte
strings are rendered from their numeric bytes rather than with the escape
forms of Python.) -/
def reprVal : PyVal → String
  | PyVal.none => "None"
  | PyVal.bool b => if b then "True" else "False"
  | PyVal.int n => intRepr n
  | PyVal.float q => ratRepr q
  | PyVal.str s => quoteS ++ s ++ quoteS
  | PyVal.bytes bs => "b" ++ quoteS ++ String.intercalate "," (bs.map Nat.repr) ++ quoteS
  | PyVal.list xs => "[" ++ reprListVals xs ++ "]"
  | PyVal.set xs => "\x7b" ++ reprListVals xs ++ "\x7d"
  | PyVal.dict kvs => "\x7b" ++ reprEntries kvs ++ "\x7d"
termination_by structural v => v

/-- Comma-separated rendering of list and set members. -/
def reprListVals : List PyVal → String
  | [] => ""
  | [x] => reprVal x
  | x :: rest => reprVal x ++ ", " ++ reprListVals rest
termination_by structural xs => xs

/-- Comma-separated rendering of dictionary entries with quoted keys. -/
def reprEntries : List (String × PyVal) → String
  | [] => ""
  | [(k, v)] => quoteS ++ k ++ quoteS ++ ": " ++ reprVal v
  | (k, v) :: rest => quoteS ++ k ++ quoteS ++ ": " ++ reprVal v ++ ", " ++ reprEntries rest
termination_by structural xs => xs

end

/-- The str of Python on embedded values, the conversion f-string
interpolation applies: strings render bare, everything else as its repr. -/
def strVal : PyVal → String
  | PyVal.str s => s
  | v => reprVal v

/-- DirectedInputsSettings.get_input: look the key up under its casefolded
spelling (casefold modelled as ASCII lowercasing), fall back to the default
when absent or nothing, apply the requested boolean, integer and float
coercions, and fail when a required result is still nothing.  Errors carry
the interpolated RuntimeError messages of the source, including the
snapshot of the current inputs in the required-input error. -/
def get_input (inputs : PyDict) (key : String) (default : PyVal)
    (required : Bool) (is_bool : Bool) (is_integer : Bool) (is_float : Bool) :
    Except String PyVal := do
  let found := (lookupA (casefoldStr key) inputs).getD default
  let v0 := if isNothing found then default else found
  let v1 := if is_bool then PyVal.bool (strtoboolVal v0) else v0
  let v2 ←
    if is_integer && !(pyIsNone v1) then
      match pyToInt v1 with
      | some n => pure (PyVal.int n)
      | Option.none =>
          Except.error ("Input " ++ key ++ " not an integer: " ++ strVal v1)
    else pure v1
  let v3 ←
    if is_float && !(pyIsNone v2) then
      match pyToFloat v2 with
      | some q => pure (PyVal.float q)
      | Option.none =>
          Except.error ("Input " ++ key ++ " not a float: " ++ strVal v2)
    else pure v2
  if isNothing v3 && required then
    Except.error ("Required input " ++ key ++ " not passed from inputs:\n" ++
      strVal (PyVal.dict inputs))
  else
    pure v3

/-- The value-level view of a get_input result: the returned value, with
the error text discarded. -/
def okView : Except String PyVal → Option PyVal
  | Except.ok v => some v
  | Except.error _ => Option.none

/-- DirectedInputsSettings.settings_customise_sources: the source list
[env if from_environment else None, stdin if from_stdin else None, init,
dotenv, file secrets] with the None entries filtered out.  Each source is
represented by the dictionary it yields. -/
def customiseSources (from_environment from_stdin : Bool)
    (env sin init dotenv secrets : PyDict) : List PyDict :=
  ([ if from_environment then some env else Option.none,
     if from_stdin then some sin else Option.none,
     some init,
     some dotenv,
     some secrets ]).filterMap id

/-- dict.update(src) of Python: write every entry of the source into the
accumulator in order, overwriting values at existing keys. -/
def updateDict (base : PyDict) (src : PyDict) : PyDict :=
  src.foldl (fun acc kv => upsert acc kv.1 kv.2) base

/-- The combine loop of auto_directed_inputs.wrapper: starting from an empty
dictionary, update with every source in order, so that on a conflicting key
the later source in the list wins. -/
def combineSources (sources : List PyDict) : PyDict :=
  sources.foldl updateDict []

/-- The merged mapping built from the default sources: combineSources over
the tuple produced by settings_customise_sources. -/
def resolveInputs (from_environment from_stdin : Bool)
    (env sin init dotenv secrets : PyDict) : PyDict :=
  combineSources (customiseSources from_environment from_stdin env sin init dotenv secrets)

/-- Value of a base64 alphabet character; none on characters outside the
standard alphabet. -/
def b64CharVal (c : Char) : Option Nat :=
  if 'A' ≤ c && c ≤ 'Z' then some (c.toNat - 65)
  else if 'a' ≤ c && c ≤ 'z' then some (c.toNat - 97 + 26)
  else if '0' ≤ c && c ≤ '9' then some (c.toNat - 48 + 52)
  else if c = '+' then some 62
  else if c = '/' then some 63
  else Option.none

/-- The character used for a 6-bit group in base64 output. -/
def b64EncChar (n : Nat) : Char :=
  if n < 26 then Char.ofNat (65 + n)
  else if n < 52 then Char.ofNat (97 + n - 26)
  else if n < 62 then Char.ofNat (48 + n - 52)
  else if n = 62 then '+'
  else '/'

/-- Standard base64 encoding of a byte sequence, with padding. -/
def b64Encode : List Nat → List Char
  | [] => []
  | [b1] => [b64EncChar (b1 / 4), b64EncChar (b1 % 4 * 16), '=', '=']
  | [b1, b2] =>
      [b64EncChar (b1 / 4), b64EncChar (b1 % 4 * 16 + b2 / 16),
       b64EncChar (b2 % 16 * 4), '=']
  | b1 :: b2 :: b3 :: rest =>
      b64EncChar (b1 / 4) :: b64EncChar (b1 % 4 * 16 + b2 / 16) ::
      b64EncChar (b2 % 16 * 4 + b3 / 64) :: b64EncChar (b3 % 64) :: b64Encode rest

/-- Standard base64 decoding: groups of four alphabet characters with
optional trailing padding; none on invalid characters or lengths, the
binascii.Error conditions. -/
def b64DecodeGroups : List Char → Option (List Nat)
  | [] => some []
  | c1 :: c2 :: c3 :: c4 :: rest =>
      match b64CharVal c1, b64CharVal c2 with
      | some v1, some v2 =>
          if c3 = '=' then
            if c4 = '=' && rest.isEmpty then some [v1 * 4 + v2 / 16] else Option.none
          else
            match b64CharVal c3 with
            | some v3 =>
                if c4 = '=' then
                  if rest.isEmpty then some [v1 * 4 + v2 / 16, v2 % 16 * 16 + v3 / 4]
                  else Option.none
                else
                  match b64CharVal c4 with
                  | some v4 =>
                      (b64DecodeGroups rest).map
                        (fun bs => (v1 * 4 + v2 / 16) :: (v2 % 16 * 16 + v3 / 4) ::
                          (v3 % 4 * 64 + v4) :: bs)
                  | Option.none => Option.none
            | Option.none => Option.none
      | _, _ => Option.none
  | _ => Option.none

/-- UTF-8 encoding of a single code point. -/
def utf8EncodeChar (n : Nat) : List Nat :=
  if n < 128 then [n]
  else if n < 2048 then [192 + n / 64, 128 + n % 64]
  else if n < 65536 then [224 + n / 4096, 128 + n / 64 % 64, 128 + n % 64]
  else [240 + n / 262144, 128 + n / 4096 % 64, 128 + n / 64 % 64, 128 + n % 64]

/-- UTF-8 encoding of a string, the str.encode() of Python. -/
def utf8Encode (s : String) : List Nat :=
  (s.toList.map (fun c => utf8EncodeChar c.toNat)).join

/-- UTF-8 decoding of a byte sequence, the bytes.decode(utf-8) of Python:
none on truncated, overlong, surrogate or out-of-range sequences
(UnicodeDecodeError). -/
def utf8Decode : List Nat → Option (List Char)
  | [] => some []
  | b1 :: rest =>
      if b1 < 128 then (utf8Decode rest).map (fun cs => Char.ofNat b1 :: cs)
      else if 192 ≤ b1 && b1 < 224 then
        match rest with
        | b2 :: rest2 =>
            if 128 ≤ b2 && b2 < 192 then
              let n := (b1 - 192) * 64 + (b2 - 128)
              if n < 128 then Option.none
              else (utf8Decode rest2).map (fun cs => Char.ofNat n :: cs)
            else Option.none
        | [] => Option.none
      else if 224 ≤ b1 && b1 < 240 then
        match rest with
        | b2 :: b3 :: rest2 =>
            if (128 ≤ b2 && b2 < 192) && (128 ≤ b3 && b3 < 192) then
              let n := (b1 - 224) * 4096 + (b2 - 128) * 64 + (b3 - 128)
              if n < 2048 || (55296 ≤ n && n < 57344) then Option.none
              else (utf8Decode rest2).map (fun cs => Char.ofNat n :: cs)
            else Option.none
        | _ => Option.none
      else if 240 ≤ b1 && b1 < 248 then
        match rest with
        | b2 :: b3 :: b4 :: rest2 =>
            if (128 ≤ b2 && b2 < 192) && (128 ≤ b3 && b3 < 192) && (128 ≤ b4 && b4 < 192) then
              let n := (b1 - 240) * 262144 + (b2 - 128) * 4096 + (b3 - 128) * 64 + (b4 - 128)
              if n < 65536 || n > 1114111 then Option.none
              else (utf8Decode rest2).map (fun cs => Char.ofNat n :: cs)
            else Option.none
        | _ => Option.none
      else Option.none

/-- Consume JSON whitespace. -/
def skipWs : List Char → List Char
  | c :: rest =>
      if c = ' ' || c = '\t' || c = '\n' || c = '\r' then skipWs rest else c :: rest
  | [] => []

/-- Body of a JSON string after the opening quote: the decoded characters
and the remainder after the closing quote.  The escape subset covers the
escapes the library round-trips (quote, backslash, slash, n, t, r, b, f);
unicode escapes are outside the model. -/
def parseStrBody : List Char → Option (List Char × List Char)
  | [] => Option.none
  | '"' :: rest => some ([], rest)
  | '\\' :: e :: rest =>
      match
        (match e with
         | '"' => some '"'
         | '\\' => some '\\'
         | '/' => some '/'
         | 'n' => some '\n'
         | 't' => some '\t'
         | 'r' => some '\r'
         | 'b' => some (Char.ofNat 8)
         | 'f' => some (Char.ofNat 12)
         | _ => Option.none) with
      | some c => (parseStrBody rest).map (fun p => (c :: p.1, p.2))
      | Option.none => Option.none
  | c :: rest =>
      if c = '\\' then Option.none
      else (parseStrBody rest).map (fun p => (c :: p.1, p.2))

/-- A JSON number: optional minus, digits, optional fractional digits
(exponent forms are outside the model).  Integral literals decode to int,
fractional ones to float, as json.loads does. -/
def parseJsonNumber (cs : List Char) : Option (PyVal × List Char) :=
  let (neg, cs1) := match cs with
    | '-' :: r => (true, r)
    | _ => (false, cs)
  let ds := cs1.takeWhile Char.isDigit
  let rest1 := cs1.dropWhile Char.isDigit
  if ds.isEmpty then Option.none
  else
    let ip : Nat := ds.foldl (fun n c => n * 10 + (c.toNat - 48)) 0
    match rest1 with
    | '.' :: r2 =>
        let fs := r2.takeWhile Char.isDigit
        let rest2 := r2.dropWhile Char.isDigit
        if fs.isEmpty then Option.none
        else
          let fp : Nat := fs.foldl (fun n c => n * 10 + (c.toNat - 48)) 0
          let q : Rat := (ip : Rat) + (fp : Rat) / ((10 : Rat) ^ fs.length)
          some (PyVal.float (if neg then -q else q), rest2)
    | _ => some (PyVal.int (if neg then -(ip : Int) else (ip : Int)), rest1)

/-- Intermediate results of the fuelled JSON parser. -/
inductive JRes where
  | val (v : PyVal)
  | arr (xs : List PyVal)
  | obj (kvs : List (String × PyVal))

/-- Parsing modes of the fuelled JSON parser: a single value, the items of
an array after the opening bracket, or the members of an object after the
opening brace. -/
inductive JMode where
  | value
  | arrItems (acc : List PyVal)
  | objItems (acc : List (String × PyVal))

/-- Recursive-descent JSON parser, fuelled to make termination structural.
In value mode it dispatches on the first character to null, true, false,
strings, numbers, arrays and objects; item modes parse comma-separated
elements and members until the closing bracket. -/
def parseJ : Nat → JMode → List Char → Option (JRes × List Char)
  | 0, _, _ => Option.none
  | Nat.succ fuel, JMode.value, cs =>
      match skipWs cs with
      | [] => Option.none
      | c :: rest =>
          if c = 'n' then
            match rest with
            | 'u' :: 'l' :: 'l' :: r => some (JRes.val PyVal.none, r)
            | _ => Option.none
          else if c = 't' then
            match rest with
            | 'r' :: 'u' :: 'e' :: r => some (JRes.val (PyVal.bool true), r)
            | _ => Option.none
          else if c = 'f' then
            match rest with
            | 'a' :: 'l' :: 's' :: 'e' :: r => some (JRes.val (PyVal.bool false), r)
            | _ => Option.none
          else if c = '"' then
            (parseStrBody rest).map (fun p => (JRes.val (PyVal.str (String.mk p.1)), p.2))
          else if c = Char.ofNat 91 then
            match parseJ fuel (JMode.arrItems []) rest with
            | some (JRes.arr xs, r) => some (JRes.val (PyVal.list xs), r)
            | _ => Option.none
          else if c = Char.ofNat 123 then
            match parseJ fuel (JMode.objItems []) rest with
            | some (JRes.obj kvs, r) => some (JRes.val (PyVal.dict kvs), r)
            | _ => Option.none
          else
            (parseJsonNumber (c :: rest)).map (fun p => (JRes.val p.1, p.2))
  | Nat.succ fuel, JMode.arrItems acc, cs =>
      match skipWs cs with
      | [] => Option.none
      | c :: rest =>
          if c = Char.ofNat 93 && acc.isEmpty then some (JRes.arr [], rest)
          else
            match parseJ fuel JMode.value (c :: rest) with
            | some (JRes.val v, r) =>
                (match skipWs r with
                 | ',' :: r2 => parseJ fuel (JMode.arrItems (acc ++ [v])) r2
                 | c2 :: r2 =>
                     if c2 = Char.ofNat 93 then some (JRes.arr (acc ++ [v]), r2)
                     else Option.none
                 | [] => Option.none)
            | _ => Option.none
  | Nat.succ fuel, JMode.objItems acc, cs =>
      match skipWs cs with
      | [] => Option.none
      | c :: rest =>
          if c = Char.ofNat 125 && acc.isEmpty then some (JRes.obj [], rest)
          else if c = '"' then
            match parseStrBody rest with
            | some (kcs, r) =>
                (match skipWs r with
                 | ':' :: r2 =>
                     (match parseJ fuel JMode.value r2 with
                      | some (JRes.val v, r3) =>
                          (match skipWs r3 with
                           | ',' :: r4 =>
                               parseJ fuel (JMode.objItems (acc ++ [(String.mk kcs, v)])) r4
                           | c2 :: r4 =>
                               if c2 = Char.ofNat 125 then
                                 some (JRes.obj (acc ++ [(String.mk kcs, v)]), r4)
                               else Option.none
                           | [] => Option.none)
                      | _ => Option.none)
                 | _ => Option.none)
            | Option.none => Option.none
          else Option.none

/-- The extended_data_types.decode_json collaborator: json.loads on a text,
requiring a single JSON document with nothing but whitespace after it. -/
def decodeJson (s : String) : Except String PyVal :=
  let cs := s.toList
  match parseJ (2 * cs.length + 2) JMode.value cs with
  | some (JRes.val v, rest) =>
      if (skipWs rest).isEmpty then Except.ok v
      else Except.error ("Failed to decode " ++ s ++ " from JSON")
  | _ => Except.error ("Failed to decode " ++ s ++ " from JSON")

/-- One line of the flat-mapping YAML fragment: key, colon, scalar value. -/
def parseYamlLine (line : String) : Option (String × PyVal) :=
  match splitOnChar ':' line.toList with
  | [] => Option.none
  | [_] => Option.none
  | k :: rest =>
      some (String.mk (trimChars k),
        PyVal.str (String.mk (trimChars (List.intercalate [':'] rest))))

/-- The extended_data_types.decode_yaml collaborator, modelled on the flat
fragment the spec exercises: a block of key-colon-value lines decodes to a
mapping of string scalars, a colon-free text decodes to itself as a scalar,
and anything else is a YAMLError. -/
def decodeYaml (s : String) : Except String PyVal :=
  let ls := (splitOnChar '\n' s.toList).filter (fun l => !(trimChars l).isEmpty)
  if !ls.isEmpty && ls.all (fun l => (parseYamlLine (String.mk l)).isSome) then
    Except.ok (PyVal.dict (ls.filterMap (fun l => parseYamlLine (String.mk l))))
  else if s.toList.all (fun c => c != ':') then Except.ok (PyVal.str (trimStr s))
  else Except.error ("Failed to decode " ++ s ++ " from YAML")

/-- Look an operating-system environment variable up with a default, the
os.getenv call of the stdin source. -/
def getenvD (env : List (String × String)) (k dflt : String) : String :=
  match env.find? (fun p => p.1 == k) with
  | some p => p.2
  | Option.none => dflt

/-- StdinSettingsSource.call: when OVERRIDE_STDIN is truthy the stdin text
is never consulted and the source yields the empty mapping; otherwise a
nothing text also yields the empty mapping, and any other text must parse as
a JSON mapping, whose entries are written into the fresh dictionary
(RuntimeError on a text that fails to parse, and the update call itself
requires a mapping). -/
def stdinSourceCall (osEnv : List (String × String)) (stdinText : String) :
    Except String PyDict :=
  if strtoboolStr (getenvD osEnv "OVERRIDE_STDIN" "False") then Except.ok []
  else if strIsEmpty stdinText then Except.ok []
  else
    match decodeJson stdinText with
    | Except.ok (PyVal.dict kvs) => Except.ok (updateDict [] kvs)
    | _ => Except.error ("Failed to decode stdin:" ++ stdinText)

/-- The decoding type tags of decoding_types.py. -/
inductive DecodeType where
  | jsonDecoded
  | yamlDecoded
  | base64Decoded
  | jsonAndBase64Decoded
  | yamlAndBase64Decoded
  | jsonWithoutBase64Decoded
  | yamlWithoutBase64Decoded
  deriving DecidableEq

/-- The issubclass test fixing the JSON flag: the tag is one of JSONDecoded,
JSONAndBase64Decoded, JSONWithoutBase64Decoded. -/
def DecodeType.wantsJson : DecodeType → Bool
  | DecodeType.jsonDecoded => true
  | DecodeType.jsonAndBase64Decoded => true
  | DecodeType.jsonWithoutBase64Decoded => true
  | _ => false

/-- The issubclass test fixing the YAML flag: the tag is one of YAMLDecoded,
YAMLAndBase64Decoded, YAMLWithoutBase64Decoded. -/
def DecodeType.wantsYaml : DecodeType → Bool
  | DecodeType.yamlDecoded => true
  | DecodeType.yamlAndBase64Decoded => true
  | DecodeType.yamlWithoutBase64Decoded => true
  | _ => false

/-- The issubclass test fixing the Base64 flag: the tag is one of
Base64Decoded, JSONAndBase64Decoded, YAMLAndBase64Decoded. -/
def DecodeType.wantsBase64 : DecodeType → Bool
  | DecodeType.base64Decoded => true
  | DecodeType.jsonAndBase64Decoded => true
  | DecodeType.yamlAndBase64Decoded => true
  | _ => false

/-- The extended_data_types.base64_decode call of decode_input: on a base64
text it unwraps to the raw decoded bytes, which the caller then decodes as
UTF-8 text; invalid base64 raises binascii.Error, and a non-text input is
likewise rejected by the underlying b64decode. -/
def base64DecodeVal : PyVal → Except String PyVal
  | PyVal.str s =>
      match b64DecodeGroups s.toList with
      | some bs => Except.ok (PyVal.bytes bs)
      | Option.none => Except.error ("Failed to decode " ++ s ++ " from base64")
  | _ => Except.error ("Failed to decode from base64")

/-- The bytes-to-text stage of decode_input: raw bytes (also the memoryview
and bytearray shapes, which the embedding collapses into bytes) are decoded
as UTF-8 text; any other value passes through unchanged. -/
def bytesToTextStep : PyVal → Except String PyVal
  | PyVal.bytes bs =>
      match utf8Decode bs with
      | some cs => Except.ok (PyVal.str (String.mk cs))
      | Option.none => Except.error "Failed to decode bytes to string"
  | v => Except.ok v

/-- The parse stage of decode_input: YAML when requested, else JSON when
requested, else the value unchanged.  The underlying decoders require text. -/
def parseStep (wantYaml wantJson : Bool) (v : PyVal) : Except String PyVal :=
  if wantYaml then
    match v with
    | PyVal.str s => decodeYaml s
    | _ => Except.error "Failed to decode from YAML"
  else if wantJson then
    match v with
    | PyVal.str s => decodeJson s
    | _ => Except.error "Failed to decode from JSON"
  else Except.ok v

/-- The three decode stages composed in the order decode_input runs them:
base64 when requested, then bytes to text, then YAML else JSON. -/
def decodePipeline (db dy dj : Bool) (v : PyVal) : Except String PyVal := do
  let v1 ← if db then base64DecodeVal v else pure v
  let v2 ← bytesToTextStep v1
  parseStep dy dj v2

/-- DirectedInputsSettings.decode_input: an optional decode type tag
overrides the three boolean flags; the value is fetched with get_input;
a None or default-equal value is returned as is; otherwise base64 decoding
runs first when requested, an intermediate bytes value is decoded as UTF-8
text, then YAML parsing when requested, else JSON parsing when requested;
finally a None result with allow_none false is replaced by the default. -/
def decode_input (inputs : PyDict) (key : String) (default : PyVal)
    (required : Bool) (decode_from_json decode_from_yaml decode_from_base64 : Bool)
    (allow_none : Bool) (decode_type : Option DecodeType) : Except String PyVal := do
  let dj := match decode_type with
    | some t => t.wantsJson
    | Option.none => decode_from_json
  let dy := match decode_type with
    | some t => t.wantsYaml
    | Option.none => decode_from_yaml
  let db := match decode_type with
    | some t => t.wantsBase64
    | Option.none => decode_from_base64
  let conf ← get_input inputs key default required false false false
  if pyIsNone conf || pyBeq conf default then pure conf
  else do
    let conf1 ← if db then base64DecodeVal conf else pure conf
    let conf2 ←
      match conf1 with
      | PyVal.bytes bs =>
          (match utf8Decode bs with
           | some cs => pure (PyVal.str (String.mk cs))
           | Option.none => Except.error "Failed to decode bytes to string")
      | v => pure v
    let conf3 ←
      if dy then
        match conf2 with
        | PyVal.str s => decodeYaml s
        | _ => Except.error "Failed to decode from YAML"
      else if dj then
        match conf2 with
        | PyVal.str s => decodeJson s
        | _ => Except.error "Failed to decode from JSON"
      else pure conf2
    if pyIsNone conf3 && !allow_none then pure default else pure conf3

/-- First-wins choice on optional values, used to state lookup priorities. -/
def orElseO (a b : Option PyVal) : Option PyVal :=
  match a with
  | some v => some v
  | Option.none => b

/-- Remove every entry stored under the given key. -/
def eraseKey (k : String) (d : PyDict) : PyDict :=
  d.filter (fun p => !(p.1 == k))

/-!  Theorems.  First the generic lemmas about the embedded operations,
then one theorem per specification claim. -/

mutual

/-- Structural equality of values agrees with propositional equality. -/
theorem pyBeq_iff : ∀ (a b : PyVal), pyBeq a b = true ↔ a = b
  | PyVal.none, b => by cases b <;> simp [pyBeq]
  | PyVal.bool x, b => by cases b <;> simp [pyBeq]
  | PyVal.int x, b => by cases b <;> simp [pyBeq]
  | PyVal.float x, b => by cases b <;> simp [pyBeq]
  | PyVal.str x, b => by cases b <;> simp [pyBeq]
  | PyVal.bytes x, b => by cases b <;> simp [pyBeq]
  | PyVal.list xs, b => by
      cases b <;> simp [pyBeq]
      exact pyBeqList_iff xs _
  | PyVal.set xs, b => by
      cases b <;> simp [pyBeq]
      exact pyBeqList_iff xs _
  | PyVal.dict xs, b => by
      cases b <;> simp [pyBeq]
      exact pyBeqDict_iff xs _
termination_by structural a b => a

/-- Structural equality of value lists agrees with propositional equality. -/
theorem pyBeqList_iff : ∀ (xs ys : List PyVal), pyBeqList xs ys = true ↔ xs = ys
  | [], ys => by cases ys <;> simp [pyBeqList]
  | x :: xs, ys => by
      cases ys <;> simp [pyBeqList]
      rw [pyBeq_iff x _, pyBeqList_iff xs _]
termination_by structural xs ys => xs

/-- Structural equality of association lists agrees with propositional
equality. -/
theorem pyBeqDict_iff : ∀ (xs ys : List (String × PyVal)), pyBeqDict xs ys = true ↔ xs = ys
  | [], ys => by cases ys <;> simp [pyBeqDict]
  | (k, v) :: xs, ys => by
      cases ys <;> simp [pyBeqDict]
      rw [pyBeq_iff v _, pyBeqDict_iff xs _]
      simp [Prod.ext_iff]
termination_by structural xs ys => xs

end

/-- Thawing always empties the frozen dictionary. -/
theorem thaw_frozen (s : DIC) : s.thaw.frozen = [] := by
  unfold DIC.thaw
  split <;> rfl

/-- Freezing preserves the one-side-empty invariant. -/
theorem freeze_step (s : DIC) (h : s.inputs = [] ∨ s.frozen = []) :
    s.freeze.inputs = [] ∨ s.freeze.frozen = [] := by
  unfold DIC.freeze
  split
  · left; rfl
  · exact h

/-- C3: for every store whose frozen dictionary is empty, freezing and then
thawing restores the store, and in particular the active mapping equals the
active mapping immediately before the freeze (the merge branch is never
taken, so no merge-ambiguity condition is needed). -/
theorem freeze_thaw_roundtrip (s : DIC) (h : s.frozen = []) : s.freeze.thaw = s := by
  obtain ⟨inp, fr⟩ := s
  simp only [DIC.frozen] at h
  subst h
  simp [DIC.freeze, DIC.thaw]

/-- Witness for the freeze-thaw round trip on a concrete one-entry store. -/
theorem freeze_thaw_roundtrip_witness :
    (⟨[("a", PyVal.str "1")], []⟩ : DIC).frozen = [] ∧
      (⟨[("a", PyVal.str "1")], []⟩ : DIC).freeze.thaw = ⟨[("a", PyVal.str "1")], []⟩ :=
  ⟨rfl, freeze_thaw_roundtrip _ rfl⟩

/-- C4: in every state reachable from construction by freeze, thaw and shift
operations, at most one of the active and frozen dictionaries is non-empty. -/
theorem reachable_one_side_empty (s : DIC) (h : DIC.Reachable s) :
    s.inputs = [] ∨ s.frozen = [] := by
  induction h with
  | init inputs => right; rfl
  | freeze _ ih => exact freeze_step _ ih
  | thaw _ _ => right; exact thaw_frozen _
  | shift _ ih =>
      unfold DIC.shift
      split
      · exact freeze_step _ ih
      · right; exact thaw_frozen _

/-- Witness: the invariant holds at a concrete reachable state. -/
theorem reachable_one_side_empty_witness :
    DIC.Reachable (DIC.mk0 [("a", PyVal.str "1")]) ∧
      ((DIC.mk0 [("a", PyVal.str "1")]).inputs = [] ∨
        (DIC.mk0 [("a", PyVal.str "1")]).frozen = []) :=
  ⟨DIC.Reachable.init _, reachable_one_side_empty _ (DIC.Reachable.init _)⟩

/-- C6 counterexample: starting from a split in which both the active and
the frozen dictionaries are non-empty, two shifts do not return the store to
its original split: the first shift thaw-merges and the second freezes the
merged dictionary, leaving the active side empty. -/
theorem shift_shift_counterexample :
    DIC.shift (DIC.shift ⟨[("a", PyVal.str "1")], [("b", PyVal.str "2")]⟩) ≠
      (⟨[("a", PyVal.str "1")], [("b", PyVal.str "2")]⟩ : DIC) := by
  intro h
  have h1 := congrArg DIC.inputs h
  rw [show DIC.shift (DIC.shift ⟨[("a", PyVal.str "1")], [("b", PyVal.str "2")]⟩) =
      ⟨[], [("a", PyVal.str "1"), ("b", PyVal.str "2")]⟩ from rfl] at h1
  simp [DIC.inputs] at h1

/-- C6 amended: for every store in which at most one of the active and
frozen dictionaries is non-empty (every reachable split), two shifts return
the store to its original split. -/
theorem shift_shift_involutive (s : DIC) (h : s.inputs = [] ∨ s.frozen = []) :
    s.shift.shift = s := by
  obtain ⟨inp, fr⟩ := s
  simp only [DIC.inputs, DIC.frozen] at h
  by_cases hi : inp = [] <;> by_cases hf : fr = [] <;>
    simp_all [DIC.shift, DIC.freeze, DIC.thaw, List.isEmpty_iff]

/-- Witness: two shifts restore a concrete store with only the active side
populated. -/
theorem shift_shift_involutive_witness :
    ((⟨[("a", PyVal.str "1")], []⟩ : DIC).inputs = [] ∨
      (⟨[("a", PyVal.str "1")], []⟩ : DIC).frozen = []) ∧
      (⟨[("a", PyVal.str "1")], []⟩ : DIC).shift.shift = ⟨[("a", PyVal.str "1")], []⟩ :=
  ⟨Or.inr rfl, shift_shift_involutive _ (Or.inr rfl)⟩

/-- Looking up the assigned key after an upsert yields the new value. -/
theorem lookupA_upsert_self (d : PyDict) (k : String) (v : PyVal) :
    lookupA k (upsert d k v) = some v := by
  induction d with
  | nil => simp [upsert, lookupA]
  | cons p rest ih =>
      obtain ⟨k2, w⟩ := p
      by_cases hk : k2 = k <;> simp [upsert, lookupA, hk, ih]

/-- Looking up a different key after an upsert is unchanged. -/
theorem lookupA_upsert_ne (d : PyDict) (k k2 : String) (v : PyVal) (h : k2 ≠ k) :
    lookupA k (upsert d k2 v) = lookupA k d := by
  induction d with
  | nil => simp [upsert, lookupA, h]
  | cons p rest ih =>
      obtain ⟨k3, w⟩ := p
      by_cases hk : k3 = k2 <;> by_cases hk2 : k3 = k <;>
        simp_all [upsert, lookupA]

/-- A key that appears in no entry has no binding. -/
theorem lookupA_eq_none_of_not_mem (k : String) (d : PyDict)
    (h : k ∉ d.map Prod.fst) : lookupA k d = Option.none := by
  induction d with
  | nil => rfl
  | cons p rest ih =>
      obtain ⟨k2, v⟩ := p
      simp only [List.map_cons, List.mem_cons] at h
      have hne : ¬k2 = k := fun he => h (Or.inl he.symm)
      simp only [lookupA, if_neg hne]
      exact ih (fun hm => h (Or.inr hm))

/-- Updating a dictionary with a duplicate-free source makes the source win
on its own keys and leaves the base visible elsewhere. -/
theorem lookupA_updateDict (k : String) (src : PyDict) (base : PyDict)
    (h : (src.map Prod.fst).Nodup) :
    lookupA k (updateDict base src) = orElseO (lookupA k src) (lookupA k base) := by
  induction src generalizing base with
  | nil => simp [updateDict, lookupA, orElseO]
  | cons p rest ih =>
      obtain ⟨k2, v⟩ := p
      simp only [List.map_cons, List.nodup_cons] at h
      have hstep : updateDict base ((k2, v) :: rest) = updateDict (upsert base k2 v) rest := rfl
      rw [hstep, ih _ h.2]
      by_cases hk : k2 = k
      · subst hk
        have hrest : lookupA k2 rest = Option.none :=
          lookupA_eq_none_of_not_mem _ _ h.1
        simp [lookupA, hrest, lookupA_upsert_self, orElseO]
      · rw [lookupA_upsert_ne base k k2 v hk]
        simp [lookupA, hk]

/-- Choosing against nothing on the right is the identity. -/
theorem orElseO_none_right (a : Option PyVal) : orElseO a Option.none = a := by
  cases a <;> rfl

/-- Choosing with nothing on the left yields the fallback. -/
theorem orElseO_none_left (b : Option PyVal) : orElseO Option.none b = b := rfl

/-- Lookup through a left fold of dict updates: the sources are consulted
from the last backwards, with the base dictionary last. -/
theorem lookupA_foldl_updateDict (k : String) (l : List PyDict) (base : PyDict)
    (h : ∀ src ∈ l, (src.map Prod.fst).Nodup) :
    lookupA k (l.foldl updateDict base) =
      (l.reverse.map (lookupA k)).foldr orElseO (lookupA k base) := by
  induction l generalizing base with
  | nil => rfl
  | cons s rest ih =>
      have hs : (s.map Prod.fst).Nodup := h s (List.mem_cons_self s rest)
      have hrest : ∀ src ∈ rest, (src.map Prod.fst).Nodup :=
        fun src hm => h src (List.mem_cons_of_mem s hm)
      simp only [List.foldl_cons, List.reverse_cons, List.map_append, List.map_cons,
        List.map_nil, List.foldr_append, List.foldr_cons, List.foldr_nil]
      rw [ih (updateDict base s) hrest, lookupA_updateDict k s base hs]

/-- C1 amended: a key present only in the initialization mapping resolves to
its initialization value even with environment and stdin enabled, but the
default priority from lowest to highest is environment variables, stdin
JSON, initialization values, dotenv values, file secrets: the combine loop
updates the accumulator in source order, so the later sources in the tuple
(dotenv and secrets, not the initialization mapping) win conflicts. -/
theorem resolve_default_priority (fe fs : Bool) (env sin init dotenv secrets : PyDict)
    (k : String)
    (henv : (env.map Prod.fst).Nodup) (hsin : (sin.map Prod.fst).Nodup)
    (hinit : (init.map Prod.fst).Nodup) (hdot : (dotenv.map Prod.fst).Nodup)
    (hsec : (secrets.map Prod.fst).Nodup) :
    lookupA k (resolveInputs fe fs env sin init dotenv secrets) =
      orElseO (lookupA k secrets) (orElseO (lookupA k dotenv) (orElseO (lookupA k init)
        (orElseO (if fs then lookupA k sin else Option.none)
          (if fe then lookupA k env else Option.none)))) ∧
    (∀ v, lookupA k init = some v → lookupA k dotenv = Option.none →
      lookupA k secrets = Option.none →
      lookupA k (resolveInputs fe fs env sin init dotenv secrets) = some v) := by
  have hmain : lookupA k (resolveInputs fe fs env sin init dotenv secrets) =
      orElseO (lookupA k secrets) (orElseO (lookupA k dotenv) (orElseO (lookupA k init)
        (orElseO (if fs then lookupA k sin else Option.none)
          (if fe then lookupA k env else Option.none)))) := by
    cases fe <;> cases fs <;>
      (simp only [resolveInputs, customiseSources, combineSources, if_true, if_false,
        List.filterMap, Bool.false_eq_true, ite_true, ite_false]
       rw [lookupA_foldl_updateDict k _ []
         (by intro src hm; fin_cases hm <;> assumption)]
       simp [orElseO_none_right, orElseO_none_left, lookupA])
  refine ⟨hmain, ?_⟩
  intro v hv hdotn hsecn
  rw [hmain, hv, hdotn, hsecn]
  rfl

/-- C1 counterexample: a key present in both the initialization mapping and
the dotenv mapping resolves to the dotenv value, not the initialization
value, so initialization values are not the highest-priority source and the
claimed order (dotenv and secrets lowest) does not hold. -/
theorem resolve_priority_counterexample :
    lookupA "k" (resolveInputs true true [("k", PyVal.str "e")] [("k", PyVal.str "s")]
      [("k", PyVal.str "i")] [("k", PyVal.str "d")] []) = some (PyVal.str "d") ∧
      PyVal.str "d" ≠ PyVal.str "i" :=
  ⟨rfl, by simp⟩

/-- Witness: the amended priority statement applied to concrete one-entry
sources, including an initialization-only key that resolves to its
initialization value with environment and stdin both enabled. -/
theorem resolve_default_priority_witness :
    lookupA "only"
        (resolveInputs true true [("k", PyVal.str "e")] [("k", PyVal.str "s")]
          [("k", PyVal.str "i"), ("only", PyVal.str "x")] [("k", PyVal.str "d")] []) =
      orElseO (lookupA "only" ([] : PyDict))
        (orElseO (lookupA "only" [("k", PyVal.str "d")])
          (orElseO (lookupA "only" [("k", PyVal.str "i"), ("only", PyVal.str "x")])
            (orElseO (if true then lookupA "only" [("k", PyVal.str "s")] else Option.none)
              (if true then lookupA "only" [("k", PyVal.str "e")] else Option.none)))) ∧
      (∀ v, lookupA "only" [("k", PyVal.str "i"), ("only", PyVal.str "x")] = some v →
        lookupA "only" [("k", PyVal.str "d")] = Option.none →
        lookupA "only" ([] : PyDict) = Option.none →
        lookupA "only"
            (resolveInputs true true [("k", PyVal.str "e")] [("k", PyVal.str "s")]
              [("k", PyVal.str "i"), ("only", PyVal.str "x")] [("k", PyVal.str "d")] []) =
          some v) :=
  resolve_default_priority true true [("k", PyVal.str "e")] [("k", PyVal.str "s")]
    [("k", PyVal.str "i"), ("only", PyVal.str "x")] [("k", PyVal.str "d")] [] "only"
    (by decide) (by decide) (by decide) (by decide) (by decide)

/-- C9: when the OVERRIDE_STDIN variable holds a truthy value, the stdin
source returns the empty mapping without consulting the stdin text at all:
two runs differing only in stdin content give the same source output, and
the resolved mapping is the one with an empty stdin contribution, which
equals the stdin-disabled resolution, so no stdin-only key can appear. -/
theorem override_stdin_never_reads (osEnv : List (String × String))
    (h : strtoboolStr (getenvD osEnv "OVERRIDE_STDIN" "False") = true) :
    (∀ c, stdinSourceCall osEnv c = Except.ok []) ∧
      (∀ c1 c2, stdinSourceCall osEnv c1 = stdinSourceCall osEnv c2) ∧
      (∀ (fe : Bool) (env init dotenv secrets : PyDict),
        resolveInputs fe true env [] init dotenv secrets =
          resolveInputs fe false env [] init dotenv secrets) := by
  refine ⟨?_, ?_, ?_⟩
  · intro c
    simp [stdinSourceCall, h]
  · intro c1 c2
    simp [stdinSourceCall, h]
  · intro fe env init dotenv secrets
    cases fe <;> rfl

/-- Witness: the override theorem applied to a concrete environment and two
different stdin payloads. -/
theorem override_stdin_never_reads_witness :
    strtoboolStr (getenvD [("OVERRIDE_STDIN", "True")] "OVERRIDE_STDIN" "False") = true ∧
      stdinSourceCall [("OVERRIDE_STDIN", "True")] "\x7b\"stdin_key\": \"v\"\x7d" =
        Except.ok [] ∧
      stdinSourceCall [("OVERRIDE_STDIN", "True")] "\x7b\"stdin_key\": \"v\"\x7d" =
        stdinSourceCall [("OVERRIDE_STDIN", "True")] "\x7b\"other\": 1\x7d" :=
  ⟨rfl, (override_stdin_never_reads [("OVERRIDE_STDIN", "True")] rfl).1 _,
    (override_stdin_never_reads [("OVERRIDE_STDIN", "True")] rfl).2.1 _ _⟩

/-- Erasing a key removes its binding. -/
theorem lookupA_eraseKey (k : String) (d : PyDict) :
    lookupA k (eraseKey k d) = Option.none := by
  induction d with
  | nil => rfl
  | cons p rest ih =>
      obtain ⟨k2, v⟩ := p
      by_cases hk : k2 = k <;> simp_all [eraseKey, lookupA, hk]

/-- C2 counterexample: with the default configuration, a value stored under
the mixed-case key Key1 is not returned for the query KEY1 (nor any other
query): get_input casefolds only the query, looks up key1, misses, and
falls back to the default. -/
theorem get_input_casefold_counterexample :
    get_input [("Key1", PyVal.str "v")] "KEY1" (PyVal.str "d") false false false false =
        Except.ok (PyVal.str "d") ∧
      PyVal.str "d" ≠ PyVal.str "v" :=
  ⟨rfl, by simp⟩

/-- C2 amended: get_input is case-insensitive in the query key only: it
returns the value stored under key k for every query q with casefold(q) = k,
so retrieval by any casing works exactly for stores whose keys are already
casefolded, while a value stored under a non-casefolded key is unreachable. -/
theorem get_input_casefold_query (inputs : PyDict) (q k : String) (v default : PyVal)
    (required : Bool) (hk : casefoldStr q = k) (hv : lookupA k inputs = some v)
    (hnn : isNothing v = false) :
    get_input inputs q default required false false false = Except.ok v := by
  subst hk
  simp [get_input, hv, hnn, pure, Except.pure, bind, Except.bind]

/-- Witness: a value stored under the casefolded key key1 is returned for
the query KEY1. -/
theorem get_input_casefold_query_witness :
    casefoldStr "KEY1" = "key1" ∧
      lookupA "key1" [("key1", PyVal.str "v")] = some (PyVal.str "v") ∧
      isNothing (PyVal.str "v") = false ∧
      get_input [("key1", PyVal.str "v")] "KEY1" (PyVal.str "d") false false false false =
        Except.ok (PyVal.str "v") :=
  ⟨rfl, rfl, rfl,
    get_input_casefold_query [("key1", PyVal.str "v")] "KEY1" "key1" (PyVal.str "v")
      (PyVal.str "d") false rfl rfl rfl⟩

/-- C10 counterexample: with required true and a nothing default, a
present-but-empty value is distinguishable from a missing key at the public
interface: both calls raise the required-input error, but the error message
embeds a snapshot of the current inputs, which differs between the store
holding the empty value and the store without the key. -/
theorem nothing_value_missing_counterexample :
    get_input [("k", PyVal.str "")] "k" PyVal.none true false false false ≠
      get_input (eraseKey (casefoldStr "k") [("k", PyVal.str "")]) "k" PyVal.none
        true false false false := by
  intro h
  have h2 := congrArg (fun r =>
    match r with
    | Except.error m => m
    | Except.ok _ => "") h
  exact absurd h2 (by decide)

/-- C10 amended: a present-but-nothing value (empty string or empty
collection) stored under the casefolded query key is replaced by the
caller-supplied default immediately after lookup, exactly as when the key is
absent, so get_input returns identical results for every flag combination
whenever required is false, and for required true the value-level behaviour
(the returned value, or the fact of failure) is still identical; the two
calls differ only in the inputs snapshot embedded in the required-input
error message. -/
theorem nothing_value_like_missing (inputs : PyDict) (q : String) (v default : PyVal)
    (required is_bool is_integer is_float : Bool)
    (hv : lookupA (casefoldStr q) inputs = some v) (hn : isNothing v = true) :
    (required = false →
      get_input inputs q default required is_bool is_integer is_float =
        get_input (eraseKey (casefoldStr q) inputs) q default required is_bool
          is_integer is_float) ∧
    okView (get_input inputs q default required is_bool is_integer is_float) =
      okView (get_input (eraseKey (casefoldStr q) inputs) q default required is_bool
        is_integer is_float) := by
  constructor
  · intro hreq
    subst hreq
    simp [get_input, hv, hn, lookupA_eraseKey]
  · simp only [get_input, hv, hn, lookupA_eraseKey, Option.getD_some, Option.getD_none,
      if_true, ite_true, ite_self, bind, Except.bind, pure, Except.pure]
    repeat' split
    all_goals rfl

/-- Witness: an empty-string value behaves like a missing key on a concrete
store, both for the full required-false equality and for the value-level
view. -/
theorem nothing_value_like_missing_witness :
    lookupA (casefoldStr "k") [("k", PyVal.str "")] = some (PyVal.str "") ∧
      isNothing (PyVal.str "") = true ∧
      ((false = false →
        get_input [("k", PyVal.str "")] "k" (PyVal.str "d") false false false false =
          get_input (eraseKey (casefoldStr "k") [("k", PyVal.str "")]) "k" (PyVal.str "d")
            false false false false) ∧
      okView (get_input [("k", PyVal.str "")] "k" (PyVal.str "d") false false false false) =
        okView (get_input (eraseKey (casefoldStr "k") [("k", PyVal.str "")]) "k"
          (PyVal.str "d") false false false false)) :=
  ⟨rfl, rfl,
    nothing_value_like_missing [("k", PyVal.str "")] "k" (PyVal.str "") (PyVal.str "d")
      false false false false rfl rfl⟩

/-- Membership in a set-strategy union is membership in either operand. -/
theorem mem_unionMembers (x : PyVal) (xs ys : List PyVal) :
    x ∈ unionMembers xs ys ↔ x ∈ xs ∨ x ∈ ys := by
  have hany : ∀ z : PyVal, (xs.any fun w => pyBeq w z) = true ↔ z ∈ xs := by
    intro z
    simp only [List.any_eq_true]
    constructor
    · rintro ⟨w, hw, hb⟩
      rw [pyBeq_iff] at hb
      exact hb ▸ hw
    · intro hz
      exact ⟨z, hz, (pyBeq_iff z z).mpr rfl⟩
  simp only [unionMembers, List.mem_append, List.mem_filter, Bool.not_eq_eq_eq_not,
    Bool.not_true]
  constructor
  · rintro (h | ⟨h, _⟩)
    · exact Or.inl h
    · exact Or.inr h
  · rintro (h | h)
    · exact Or.inl h
    · by_cases hx : x ∈ xs
      · exact Or.inl hx
      · refine Or.inr ⟨h, ?_⟩
        rw [Bool.eq_false_iff, Ne, hany]
        exact hx
  
/-- Lookup distributes over appending dictionaries, preferring the left. -/
theorem lookupA_append (k : String) (xs ys : PyDict) :
    lookupA k (xs ++ ys) = orElseO (lookupA k xs) (lookupA k ys) := by
  induction xs with
  | nil => rfl
  | cons p rest ih =>
      obtain ⟨k2, v⟩ := p
      by_cases hk : k2 = k <;> simp [lookupA, hk, ih, orElseO]

/-- Lookup after the dict merge strategy: a key found in both dictionaries
carries the recursive merge of the two values, a key found in only one
carries that value, and a key in neither is absent (the incoming dictionary
is duplicate-free, as every Python dict is). -/
theorem lookupA_mergeEntries (k : String) (xs ys : PyDict)
    (h : (ys.map Prod.fst).Nodup) :
    lookupA k (mergeEntries xs ys) =
      match lookupA k xs, lookupA k ys with
      | some v, some w => some (mergeVal v w)
      | some v, Option.none => some v
      | Option.none, some w => some w
      | Option.none, Option.none => Option.none := by
  induction ys generalizing xs with
  | nil =>
      cases hx : lookupA k xs <;> simp [mergeEntries, lookupA, hx]
  | cons p rest ih =>
      obtain ⟨k2, w⟩ := p
      simp only [List.map_cons, List.nodup_cons] at h
      by_cases hk : k2 = k
      · subst hk
        have hrest : lookupA k2 rest = Option.none :=
          lookupA_eq_none_of_not_mem _ _ h.1
        cases hx : lookupA k2 xs with
        | some v =>
            rw [show mergeEntries xs ((k2, w) :: rest) =
                mergeEntries (upsert xs k2 (mergeVal v w)) rest by
              simp [mergeEntries, hx]]
            rw [ih _ h.2, lookupA_upsert_self]
            simp [lookupA, hrest]
        | none =>
            rw [show mergeEntries xs ((k2, w) :: rest) =
                mergeEntries (xs ++ [(k2, w)]) rest by
              simp [mergeEntries, hx]]
            rw [ih _ h.2, lookupA_append]
            simp [lookupA, hrest, hx, orElseO]
      · have hys : lookupA k ((k2, w) :: rest) = lookupA k rest := by
          simp [lookupA, hk]
        cases hx2 : lookupA k2 xs with
        | some v =>
            rw [show mergeEntries xs ((k2, w) :: rest) =
                mergeEntries (upsert xs k2 (mergeVal v w)) rest by
              simp [mergeEntries, hx2]]
            rw [ih _ h.2, lookupA_upsert_ne _ _ _ _ hk, hys]
        | none =>
            rw [show mergeEntries xs ((k2, w) :: rest) =
                mergeEntries (xs ++ [(k2, w)]) rest by
              simp [mergeEntries, hx2]]
            rw [ih _ h.2, lookupA_append, hys]
            simp [lookupA, hk, orElseO_none_right]

/-- C5: with both dictionaries non-empty, thaw replaces the active
dictionary by the deep merge of frozen into active and empties frozen; on
each key the merge combines the two values with the type strategies: lists
are concatenated, set members unioned, dictionaries merged recursively
key by key, and every other combination resolved to the incoming frozen
value. -/
theorem thaw_merge_policy (s : DIC) (hne : s.inputs.isEmpty = false)
    (hnf : s.frozen.isEmpty = false) (hdup : (s.frozen.map Prod.fst).Nodup) :
    s.thaw = ⟨mergeEntries s.inputs s.frozen, []⟩ ∧
    (∀ k, lookupA k (mergeEntries s.inputs s.frozen) =
      match lookupA k s.inputs, lookupA k s.frozen with
      | some v, some w => some (mergeVal v w)
      | some v, Option.none => some v
      | Option.none, some w => some w
      | Option.none, Option.none => Option.none) ∧
    (∀ xs ys, mergeVal (PyVal.list xs) (PyVal.list ys) = PyVal.list (xs ++ ys)) ∧
    (∀ xs ys, mergeVal (PyVal.set xs) (PyVal.set ys) = PyVal.set (unionMembers xs ys) ∧
      ∀ x, x ∈ unionMembers xs ys ↔ x ∈ xs ∨ x ∈ ys) ∧
    (∀ xs ys, mergeVal (PyVal.dict xs) (PyVal.dict ys) = PyVal.dict (mergeEntries xs ys)) ∧
    (∀ x y, mergeVal x y = y ∨
      (∃ as bs, x = PyVal.list as ∧ y = PyVal.list bs) ∨
      (∃ as bs, x = PyVal.set as ∧ y = PyVal.set bs) ∨
      (∃ as bs, x = PyVal.dict as ∧ y = PyVal.dict bs)) ∧
    (∀ t : DIC, t.thaw.frozen = []) := by
  refine ⟨?_, fun k => lookupA_mergeEntries k s.inputs s.frozen hdup,
    fun xs ys => rfl, fun xs ys => ⟨rfl, fun x => mem_unionMembers x xs ys⟩,
    fun xs ys => rfl, ?_, fun t => thaw_frozen t⟩
  · simp [DIC.thaw, hne]
  · intro x y
    cases x <;> cases y <;>
      first
        | exact Or.inl rfl
        | exact Or.inr (Or.inl ⟨_, _, rfl, rfl⟩)
        | exact Or.inr (Or.inr (Or.inl ⟨_, _, rfl, rfl⟩))
        | exact Or.inr (Or.inr (Or.inr ⟨_, _, rfl, rfl⟩))

/-- Witness: thawing a concrete store with both sides populated yields the
merged dictionary and an empty frozen side. -/
theorem thaw_merge_policy_witness :
    (⟨[("a", PyVal.int 1)], [("b", PyVal.int 2)]⟩ : DIC).thaw =
      ⟨mergeEntries [("a", PyVal.int 1)] [("b", PyVal.int 2)], []⟩ :=
  (thaw_merge_policy ⟨[("a", PyVal.int 1)], [("b", PyVal.int 2)]⟩ rfl rfl (by decide)).1

/-- decode_input with no decode-type tag is the fetch, the skip test for
None or default values, the composed three-stage pipeline, and the
allow-none guard, in that order. -/
theorem decode_input_eq_pipeline (inputs : PyDict) (key : String) (default : PyVal)
    (required dj dy db an : Bool) :
    decode_input inputs key default required dj dy db an Option.none =
      (get_input inputs key default required false false false).bind (fun conf =>
        if pyIsNone conf || pyBeq conf default then Except.ok conf
        else (decodePipeline db dy dj conf).bind (fun r =>
          if pyIsNone r && !an then Except.ok default else Except.ok r)) := by
  cases hg : get_input inputs key default required false false false with
  | error e => simp [decode_input, hg, bind, Except.bind]
  | ok conf =>
      simp only [decode_input, hg, bind, Except.bind, decodePipeline]
      by_cases hc : (pyIsNone conf || pyBeq conf default) = true
      · simp [hc, pure, Except.pure]
      · simp only [hc, if_false, Bool.false_eq_true]
        cases db with
        | true =>
            cases h1 : base64DecodeVal conf with
            | error e => simp [h1]
            | ok c1 =>
                simp only [if_true, h1]
                cases c1 with
                | bytes bs =>
                    cases h2 : utf8Decode bs <;> cases dy <;> cases dj <;>
                      simp [bytesToTextStep, h2, parseStep, pure, Except.pure]
                | none => cases dy <;> cases dj <;> simp [bytesToTextStep, parseStep, pure, Except.pure]
                | bool b => cases dy <;> cases dj <;> simp [bytesToTextStep, parseStep, pure, Except.pure]
                | int n => cases dy <;> cases dj <;> simp [bytesToTextStep, parseStep, pure, Except.pure]
                | float q => cases dy <;> cases dj <;> simp [bytesToTextStep, parseStep, pure, Except.pure]
                | str s2 => cases dy <;> cases dj <;> simp [bytesToTextStep, parseStep, pure, Except.pure]
                | list xs => cases dy <;> cases dj <;> simp [bytesToTextStep, parseStep, pure, Except.pure]
                | set xs => cases dy <;> cases dj <;> simp [bytesToTextStep, parseStep, pure, Except.pure]
                | dict kvs => cases dy <;> cases dj <;> simp [bytesToTextStep, parseStep, pure, Except.pure]
        | false =>
            simp only [Bool.false_eq_true, if_false]
            cases conf with
            | bytes bs =>
                cases h2 : utf8Decode bs <;> cases dy <;> cases dj <;>
                  simp [bytesToTextStep, h2, parseStep, pure, Except.pure]
            | none => cases dy <;> cases dj <;> simp [bytesToTextStep, parseStep, pure, Except.pure]
            | bool b => cases dy <;> cases dj <;> simp [bytesToTextStep, parseStep, pure, Except.pure]
            | int n => cases dy <;> cases dj <;> simp [bytesToTextStep, parseStep, pure, Except.pure]
            | float q => cases dy <;> cases dj <;> simp [bytesToTextStep, parseStep, pure, Except.pure]
            | str s2 => cases dy <;> cases dj <;> simp [bytesToTextStep, parseStep, pure, Except.pure]
            | list xs => cases dy <;> cases dj <;> simp [bytesToTextStep, parseStep, pure, Except.pure]
            | set xs => cases dy <;> cases dj <;> simp [bytesToTextStep, parseStep, pure, Except.pure]
            | dict kvs => cases dy <;> cases dj <;> simp [bytesToTextStep, parseStep, pure, Except.pure]

/-- C7: decode_input applies its stages in the fixed order base64, bytes to
UTF-8 text, then YAML else JSON (first conjunct, the composed pipeline);
with YAML requested the JSON flag is irrelevant, so YAML and JSON parsing
are never both applied in one call (second conjunct); and decoding a value
obtained by JSON-encoding the mapping name to test and then Base64-encoding
it, with Base64 and JSON decoding requested, returns exactly that mapping
(third conjunct). -/
theorem decode_order (inputs : PyDict) (key : String) (default : PyVal)
    (required dj dy db an : Bool) :
    decode_input inputs key default required dj dy db an Option.none =
      (get_input inputs key default required false false false).bind (fun conf =>
        if pyIsNone conf || pyBeq conf default then Except.ok conf
        else (decodePipeline db dy dj conf).bind (fun r =>
          if pyIsNone r && !an then Except.ok default else Except.ok r)) ∧
    decode_input inputs key default required true true db an Option.none =
      decode_input inputs key default required false true db an Option.none ∧
    decode_input
        [("base64_key",
          PyVal.str (String.mk (b64Encode (utf8Encode "\x7b\"name\": \"test\"\x7d"))))]
        "base64_key" PyVal.none false true false true true Option.none =
      Except.ok (PyVal.dict [("name", PyVal.str "test")]) :=
  ⟨decode_input_eq_pipeline inputs key default required dj dy db an, rfl, rfl⟩

/-- C8 counterexample: with allow_none false, a decoded result that is
empty but not null is returned as is, not replaced by the default: decoding
the stored JSON text consisting of two quote characters yields the empty
string, which decode_input returns even though it is empty and differs from
the default. -/
theorem decode_allow_none_counterexample :
    decode_input [("k", PyVal.str "\"\"")] "k" (PyVal.str "D") false true false false false
        Option.none = Except.ok (PyVal.str "") ∧
      isNothing (PyVal.str "") = true ∧
      PyVal.str "" ≠ PyVal.str "D" :=
  ⟨rfl, rfl, by simp⟩

/-- C8 amended: with allow_none false, only a decoded result of None (null)
is replaced by the caller-supplied default; any other decoded result,
including empty ones, is returned unchanged.  (A value that is None or equal
to the default before decoding is returned as fetched and never reaches the
guard.) -/
theorem decode_allow_none_guard (inputs : PyDict) (key : String) (default : PyVal)
    (required dj dy db : Bool) (c : PyVal)
    (hg : get_input inputs key default required false false false = Except.ok c)
    (hn : pyIsNone c = false) (hd : pyBeq c default = false) :
    decode_input inputs key default required dj dy db false Option.none =
      (decodePipeline db dy dj c).bind (fun r =>
        if pyIsNone r then Except.ok default else Except.ok r) := by
  rw [decode_input_eq_pipeline, hg]
  simp only [Except.bind, bind, hn, hd, Bool.or_self, Bool.false_eq_true, if_false,
    Bool.not_false, Bool.and_true]

/-- Witness: decoding a stored JSON null with allow_none false returns the
default. -/
theorem decode_allow_none_guard_witness :
    get_input [("k", PyVal.str "null")] "k" (PyVal.str "D") false false false false =
        Except.ok (PyVal.str "null") ∧
      pyIsNone (PyVal.str "null") = false ∧
      pyBeq (PyVal.str "null") (PyVal.str "D") = false ∧
      decode_input [("k", PyVal.str "null")] "k" (PyVal.str "D") false true false false false
          Option.none =
        (decodePipeline false false true (PyVal.str "null")).bind (fun r =>
          if pyIsNone r then Except.ok (PyVal.str "D") else Except.ok r) :=
  ⟨rfl, rfl, rfl,
    decode_allow_none_guard [("k", PyVal.str "null")] "k" (PyVal.str "D") false true false
      false (PyVal.str "null") rfl rfl rfl⟩
